import Mathlib

/-!
# Account handler (`account/handler/handler.go`)

A shallow embedding of the account HTTP handler: the permission namer, the
three handlers `Create`, `Get`, `Delete`, and the routes registered by
`SetRoutes`.  Calls made to collaborators (guards, storage, response writer)
are recorded, in program order, as a list of `Event`s.

Go strings are modelled by `String`.
-/

set_option autoImplicit false

namespace Hydra

/-! ## `fmt.Sprintf`, restricted to the verbs the handler uses -/

/-- Formatting loop of `fmt.Sprintf` over the characters of the format: `%s`
consumes the next string operand and writes it unchanged, `%%` writes a percent
sign, every other character is copied. A `%s` with no operand left writes
Go's `%!s(MISSING)`. -/
def sprintfAux : List Char → List String → List Char
  | [], _ => []
  | '%' :: 's' :: rest, a :: args => a.data ++ sprintfAux rest args
  | '%' :: 's' :: rest, [] => "%!s(MISSING)".data ++ sprintfAux rest []
  | '%' :: '%' :: rest, args => '%' :: sprintfAux rest args
  | c :: rest, args => c :: sprintfAux rest args

/-- The Go call `fmt.Sprintf(format, args...)` for string operands. -/
def Sprintf (format : String) (args : List String) : String :=
  ⟨sprintfAux format.data args⟩

/-- The Go function `permission(id)`: `fmt.Sprintf("rn:hydra:accounts:%s", id)`. -/
def permission (id : String) : String :=
  Sprintf "rn:hydra:accounts:%s" [id]

/-! ## Data model -/

/-- Go `error` values, identified by their message. -/
abbrev Err := String

/-- The map returned by `mux.Vars(req)`, as an association list. -/
abbrev Vars := List (String × String)

/-- The parts of `*http.Request` the handlers read: the route variables and the body. -/
structure Request where
  vars : Vars
  body : String
  deriving DecidableEq, Repr

/-- The values carried by a `context.Context`. -/
abbrev Context := List (String × String)

/-- The empty context `context.Background()`. -/
def Background : Context := []

/-- Modelled from the spec: the `Account` type of package `account` is not among
the sources; an account is the record (id, email, password, data) that `Storage`
keeps, and `GetID` reads its id. -/
structure Account where
  id : String
  email : String
  password : String
  data : String
  deriving DecidableEq, Repr

/-- The method `GetID()` of an account. -/
def Account.GetID (a : Account) : String := a.id

/-- Modelled from the spec: the `Storage` interface of package `account` is not
among the sources; section 6 gives `Create(id, email, password, dataJSON)`,
`Get(id)` and `Delete(id)`, each failing with an error. Every handler calls the
storage at most once, so each operation is the function of its arguments that
the backend computes in its state at that call. -/
structure Storage where
  Create : String → String → String → String → Except Err Account
  Get : String → Except Err Account
  Delete : String → Option Err

/-- Modelled from the spec: the environment of package `middleware` is not among
the sources; it is the AuthzContext of section 3, built from the request with an
optional owner. -/
structure Env where
  req : Request
  owner : Option String
  deriving DecidableEq, Repr

/-- The call `middleware.NewEnv(req)`: an environment with no owner yet. -/
def NewEnv (req : Request) : Env := { req := req, owner := none }

/-- The call `env.Owner(id)`: the same environment with its owner set to `id`. -/
def Env.Owner (e : Env) (id : String) : Env := { e with owner := some id }

/-- Calls a request makes to the handler's collaborators, in program order: the
guards (with whether the guard invoked the handler it wraps), the storage, and
the response writer. -/
inductive Event where
  | extractor (invoked : Bool)
  | IsAuthenticated (invoked : Bool)
  | IsAuthorized (permission action : String) (env : Option Env) (invoked : Bool)
  | StorageCreate (id email password data : String)
  | StorageGet (id : String)
  | StorageDelete (id : String)
  | HttpError (err : Err) (code : Nat)
  | httpError (msg : String) (code : Nat)
  | WriteError (err : Err)
  | WriteCreatedJSON (url : String) (user : Account)
  | WriteJSON (user : Account)
  | WriteHeader (code : Nat)
  deriving DecidableEq, Repr

/-- A `chd.ContextHandler`: serving a request in a context yields the calls made. -/
abbrev ContextHandler := Context → Request → List Event

/-- What a guard does with a request: invoke the handler it wraps, with the
context and request it passes on, or answer by itself and not invoke it. -/
inductive Decision where
  | next (ctx : Context) (req : Request)
  | stop
  deriving DecidableEq, Repr

/-- A guard as a function from handlers to handlers: it is evaluated, and the
wrapped handler runs only when the guard decides to invoke it. What a guard
itself writes to the response is not recorded. -/
def guard (label : Bool → Event) (d : Context → Request → Decision)
    (next : ContextHandler) : ContextHandler :=
  fun ctx req =>
    match d ctx req with
    | .next ctx1 req1 => label true :: next ctx1 req1
    | .stop => [label false]

/-- Modelled from the spec: package `middleware` is not among the sources; each
of its guards either invokes or does not invoke the handler it wraps, which
these two decision functions give. -/
structure Middleware where
  authenticated : Context → Request → Decision
  authorized : String → String → Option Env → Context → Request → Decision

/-- The guard `m.IsAuthenticated`. -/
def Middleware.IsAuthenticated (m : Middleware) : ContextHandler → ContextHandler :=
  guard Event.IsAuthenticated m.authenticated

/-- The guard built by `m.IsAuthorized(permission, action, env)`. -/
def Middleware.IsAuthorized (m : Middleware) (permission action : String)
    (env : Option Env) : ContextHandler → ContextHandler :=
  guard (Event.IsAuthorized permission action env) (m.authorized permission action env)

/-- The Go type `Handler`. -/
structure Handler where
  s : Storage
  m : Middleware

/-- The Go function `NewHandler`. -/
def NewHandler (s : Storage) (m : Middleware) : Handler := { s := s, m := m }

/-! ## Libraries the handlers call -/

/-- The string members a JSON body gives for the keys `email`, `password` and
`data`; `none` for a key that is absent. -/
structure JSONObject where
  email : Option String
  password : Option String
  data : Option String
  deriving DecidableEq, Repr

/-- The local type `Payload` of `Create`. -/
structure Payload where
  Email : String
  Password : String
  Data : String
  deriving DecidableEq, Repr

/-- The library functions the handlers call, whose code is outside the
repository: the JSON reader behind `json.NewDecoder(...).Decode`, the validators
`IsEmail` and `IsJSON` of govalidator together with the error `ValidateStruct`
reports for an invalid struct (possibly nil), and the id `uuid.New()` returns
during the request. -/
structure Runtime where
  parseJSON : String → Except Err JSONObject
  IsEmail : String → Bool
  IsJSON : String → Bool
  validationError : Payload → Option Err
  uuidNew : String

/-- The zero value `var p Payload`. -/
def Payload.zero : Payload := { Email := "", Password := "", Data := "" }

/-- Storing a JSON object into a struct: each member present overwrites the
field with its `json` tag, and the other fields keep their value. -/
def Payload.fill (p : Payload) (o : JSONObject) : Payload :=
  { Email := o.email.getD p.Email,
    Password := o.password.getD p.Password,
    Data := o.data.getD p.Data }

/-- The call `decoder.Decode(&p)`: a body that is not JSON is an error; otherwise
the object read is stored into `p`. -/
def Decode (rt : Runtime) (body : String) (p : Payload) : Except Err Payload :=
  match rt.parseJSON body with
  | .error err => .error err
  | .ok o => .ok (p.fill o)

/-- The govalidator check `length(min|max)`: the byte length lies in `min..max`. -/
def ByteLength (str : String) (min max : Nat) : Bool :=
  decide (min ≤ str.utf8ByteSize) && decide (str.utf8ByteSize ≤ max)

/-- The tag `valid:"email,required"` on `Email`. -/
def validEmail (rt : Runtime) (p : Payload) : Bool :=
  p.Email != "" && rt.IsEmail p.Email

/-- The tag `valid:"length(6|254),required"` on `Password`. -/
def validPassword (p : Payload) : Bool :=
  p.Password != "" && ByteLength p.Password 6 254

/-- The tag `valid:"optional,json"` on `Data`: an empty value is not checked. -/
def validData (rt : Runtime) (p : Payload) : Bool :=
  p.Data == "" || rt.IsJSON p.Data

/-- The call `govalidator.ValidateStruct(p)`: whether every field satisfies its
`valid` tag, and the error reported when one does not. -/
def ValidateStruct (rt : Runtime) (p : Payload) : Bool × Option Err :=
  if validEmail rt p && validPassword p && validData rt p then (true, none)
  else (false, rt.validationError p)

/-! ## The handlers -/

/-- The `data` argument `Create` passes to the storage: `"{}"` in place of an
empty `p.Data`. -/
def createData (p : Payload) : String := if p.Data = "" then "{}" else p.Data

/-- The end of `Create`, for a decoded payload that validated: the data default,
the call `h.s.Create(uuid.New(), ...)`, and the response. -/
def createBody (h : Handler) (rt : Runtime) (p : Payload) : List Event :=
  Event.StorageCreate rt.uuidNew p.Email p.Password (createData p) ::
    match h.s.Create rt.uuidNew p.Email p.Password (createData p) with
    | .error err => [Event.WriteError err]
    | .ok user => [Event.WriteCreatedJSON ("/accounts/" ++ user.GetID) user]

/-- The Go method `Handler.Create`. -/
def Handler.Create (h : Handler) (rt : Runtime) : ContextHandler :=
  fun _ctx req =>
    match Decode rt req.body Payload.zero with
    | .error err => [Event.HttpError err 400]
    | .ok p =>
      match ValidateStruct rt p with
      | (false, some err) => [Event.HttpError err 400]
      | (false, none) => [Event.httpError "Payload did not validate." 400]
      | (true, _) => createBody h rt p

/-- The handler `Get` wraps in its `IsAuthorized` guard: `h.s.Get(id)`, then the
error or the account. -/
def getBody (h : Handler) (id : String) : List Event :=
  Event.StorageGet id ::
    match h.s.Get id with
    | .error err => [Event.WriteError err]
    | .ok user => [Event.WriteJSON user]

/-- The Go method `Handler.Get`. -/
def Handler.Get (h : Handler) : ContextHandler :=
  fun ctx req =>
    match req.vars.lookup "id" with
    | none => [Event.HttpError "No id given." 400]
    | some id =>
      h.m.IsAuthorized (permission id) "get" (some ((NewEnv req).Owner id))
        (fun _ctx _req => getBody h id) ctx req

/-- The handler `Delete` wraps in its `IsAuthorized` guard: `h.s.Delete(id)`,
then status 500 with the error, or status 202. -/
def deleteBody (h : Handler) (id : String) : List Event :=
  Event.StorageDelete id ::
    match h.s.Delete id with
    | some err => [Event.HttpError err 500]
    | none => [Event.WriteHeader 202]

/-- The Go method `Handler.Delete`. -/
def Handler.Delete (h : Handler) : ContextHandler :=
  fun ctx req =>
    match req.vars.lookup "id" with
    | none => [Event.HttpError "No id given." 400]
    | some id =>
      h.m.IsAuthorized (permission id) "delete" (some ((NewEnv req).Owner id))
        (fun _ctx _req => deleteBody h id) ctx req

/-! ## Routes -/

/-- Modelled from the spec: the adapter of package `common/handler` is not among
the sources; section 4.4: an ordered sequence of guards around a terminal
handler, invoked strictly in construction order. -/
structure ContextAdapter where
  ctx : Context
  middlewares : List (ContextHandler → ContextHandler)

/-- The call `chd.NewContextAdapter(ctx, middlewares...)`. -/
def NewContextAdapter (ctx : Context)
    (middlewares : List (ContextHandler → ContextHandler)) : ContextAdapter :=
  { ctx := ctx, middlewares := middlewares }

/-- The call `adapter.ThenFunc(final)`: the first guard is outermost, the
terminal handler innermost, and the request is served in the adapter's context. -/
def ContextAdapter.ThenFunc (a : ContextAdapter) (final : ContextHandler) :
    Request → List Event :=
  fun req => (a.middlewares.foldr (fun mw next => mw next) final) a.ctx req

/-- A route registered on the router: path template, method, handler. -/
structure Route where
  path : String
  method : String
  serve : Request → List Event

/-- The Go method `Handler.SetRoutes`: the routes it registers, in order. The
`extractor` argument is a guard like the others. -/
def Handler.SetRoutes (h : Handler) (rt : Runtime)
    (extractor : Context → Request → Decision) : List Route :=
  [ { path := "/accounts", method := "POST",
      serve := (NewContextAdapter Background
        [guard Event.extractor extractor,
         h.m.IsAuthenticated,
         h.m.IsAuthorized "rn:hydra:accounts" "create" none]).ThenFunc (h.Create rt) },
    { path := "/accounts/{id}", method := "GET",
      serve := (NewContextAdapter Background
        [guard Event.extractor extractor,
         h.m.IsAuthenticated]).ThenFunc h.Get },
    { path := "/accounts/{id}", method := "DELETE",
      serve := (NewContextAdapter Background
        [guard Event.extractor extractor,
         h.m.IsAuthenticated]).ThenFunc h.Delete } ]

/-! ## Reading a trace -/

/-- Whether the event is an evaluation of an `IsAuthorized` guard. -/
def Event.isAuthorized : Event → Bool
  | .IsAuthorized _ _ _ _ => true
  | _ => false

/-- Whether the event is an evaluation of a guard. -/
def Event.isGuard : Event → Bool
  | .extractor _ => true
  | .IsAuthenticated _ => true
  | .IsAuthorized _ _ _ _ => true
  | _ => false

/-- Whether the event is a call to the storage. -/
def Event.isStorage : Event → Bool
  | .StorageCreate _ _ _ _ => true
  | .StorageGet _ => true
  | .StorageDelete _ => true
  | _ => false

/-- Modelled from the spec: the helpers `HttpError`, `WriteError`, `WriteJSON`
and `WriteCreatedJSON` of package `common/pkg` are not among the sources. The
status a call writes to the response: `HttpError`, `http.Error` and
`WriteHeader` write the code they are given, `WriteCreatedJSON` 201 and
`WriteJSON` 200 (section 6), `WriteError` the code `errCode` that the error
writer maps the error to (section 7). Guards and storage write none here. -/
def Event.status? (errCode : Err → Nat) : Event → Option Nat
  | .HttpError _ code => some code
  | .httpError _ code => some code
  | .WriteHeader code => some code
  | .WriteCreatedJSON _ _ => some 201
  | .WriteJSON _ => some 200
  | .WriteError err => some (errCode err)
  | _ => none

/-- All statuses written during a request, in order. -/
def statuses (errCode : Err → Nat) (t : List Event) : List Nat :=
  t.filterMap (Event.status? errCode)

/-- The status of the response: the first one written. -/
def responseStatus (errCode : Err → Nat) (t : List Event) : Option Nat :=
  (statuses errCode t).head?

/-- Whether the call writes to the response body: every writer does, except a
bare `WriteHeader`. -/
def Event.writesBody : Event → Bool
  | .HttpError _ _ => true
  | .httpError _ _ => true
  | .WriteError _ => true
  | .WriteCreatedJSON _ _ => true
  | .WriteJSON _ => true
  | _ => false

/-- The `Location` header a call sets, if any. -/
def Event.location? : Event → Option String
  | .WriteCreatedJSON url _ => some url
  | _ => none

/-- The event `a` occurs in the trace strictly before an occurrence of `b`. -/
def Before (a b : Event) (t : List Event) : Prop :=
  ∃ pre mid post, t = pre ++ a :: (mid ++ b :: post)

/-- The calls made after authentication on every route: none to a guard or the
storage, or an `IsAuthorized` guard that refuses, or one that invokes a terminal
handler which evaluates no further guard. -/
def Inner (t : List Event) : Prop :=
  (∀ e ∈ t, e.isGuard = false ∧ e.isStorage = false) ∨
  (∃ p a env, t = [Event.IsAuthorized p a env false]) ∨
  (∃ p a env rest, t = Event.IsAuthorized p a env true :: rest ∧
    ∀ e ∈ rest, e.isGuard = false)

/-- The payloads `ValidateStruct` rejects. -/
def Rejected (rt : Runtime) (p : Payload) : Prop :=
  p.Email = "" ∨ rt.IsEmail p.Email = false ∨
  p.Password.utf8ByteSize < 6 ∨ 254 < p.Password.utf8ByteSize ∨
  (p.Data ≠ "" ∧ rt.IsJSON p.Data = false)

/-! ## Concrete collaborators, for evaluating the handlers -/

namespace Sample

/-- A storage that keeps what it is given and deletes without error. -/
def storage : Storage :=
  { Create := fun id email password data =>
      .ok { id := id, email := email, password := password, data := data },
    Get := fun id => .ok { id := id, email := "a@b.c", password := "secret1", data := "{}" },
    Delete := fun _ => none }

/-- A storage that files every new account under an id of its own choosing. -/
def renamingStorage : Storage :=
  { Create := fun _ email password data =>
      .ok { id := "row-7", email := email, password := password, data := data },
    Get := fun id => .ok { id := id, email := "a@b.c", password := "secret1", data := "{}" },
    Delete := fun _ => none }

/-- Guards that let every request through unchanged. -/
def openMiddleware : Middleware :=
  { authenticated := fun ctx req => .next ctx req,
    authorized := fun _ _ _ ctx req => .next ctx req }

/-- Guards that refuse authentication. -/
def closedMiddleware : Middleware :=
  { authenticated := fun _ _ => .stop,
    authorized := fun _ _ _ ctx req => .next ctx req }

/-- An extractor that passes the request on unchanged. -/
def extractor : Context → Request → Decision := fun ctx req => .next ctx req

/-- A runtime reading three fixed bodies. -/
def runtime : Runtime :=
  { parseJSON := fun body =>
      if body = "good" then .ok { email := some "a@b.c", password := some "secret1", data := none }
      else if body = "bad" then
        .ok { email := some "not-an-email", password := some "short", data := none }
      else .error "unexpected end of JSON input",
    IsEmail := fun str => str == "a@b.c",
    IsJSON := fun str => str == "{}",
    validationError := fun p => some ("Email: " ++ p.Email ++ " does not validate as email;"),
    uuidNew := "u-1" }

/-- The error writer's status for an error: always 500 here. -/
def errCode : Err → Nat := fun _ => 500

/-- The handler over the keeping storage and the open guards. -/
def handler : Handler := NewHandler storage openMiddleware

/-- The handler over the renaming storage and the open guards. -/
def renamingHandler : Handler := NewHandler renamingStorage openMiddleware

/-- The handler over the keeping storage and guards refusing authentication. -/
def closedHandler : Handler := NewHandler storage closedMiddleware

/-- The `POST /accounts` route of the open handler. -/
def postRoute : Route :=
  (handler.SetRoutes runtime extractor).head (by simp [Handler.SetRoutes])

/-- The `DELETE /accounts/{id}` route of the handler refusing authentication. -/
def closedDeleteRoute : Route :=
  (closedHandler.SetRoutes runtime extractor).getLast (by simp [Handler.SetRoutes])

/-- A request for the account `u1`. -/
def requestU1 : Request := { vars := [("id", "u1")], body := "" }

/-- A request to create an account, with a valid body. -/
def goodCreate : Request := { vars := [], body := "good" }

/-- A request to create an account, with a body that does not validate. -/
def badCreate : Request := { vars := [], body := "bad" }

end Sample

/-! ## Lemmas -/

theorem permission_eq (id : String) : permission id = "rn:hydra:accounts:" ++ id := by
  apply String.ext
  simp [permission, Sprintf, sprintfAux]

theorem permission_data (id : String) :
    (permission id).data = "rn:hydra:accounts:".data ++ id.data := by
  rw [permission_eq, String.data_append]

theorem guard_stop (label : Bool → Event) (d : Context → Request → Decision)
    (next : ContextHandler) (ctx : Context) (req : Request) (hd : d ctx req = .stop) :
    guard label d next ctx req = [label false] := by
  simp [guard, hd]

theorem guard_next (label : Bool → Event) (d : Context → Request → Decision)
    (next : ContextHandler) (ctx : Context) (req : Request) (c : Context) (r : Request)
    (hd : d ctx req = .next c r) :
    guard label d next ctx req = label true :: next c r := by
  simp [guard, hd]

theorem guard_cases (label : Bool → Event) (d : Context → Request → Decision)
    (next : ContextHandler) (ctx : Context) (req : Request) :
    guard label d next ctx req = [label false] ∨
      ∃ c r, guard label d next ctx req = label true :: next c r := by
  cases hd : d ctx req with
  | next c r => exact Or.inr ⟨c, r, guard_next label d next ctx req c r hd⟩
  | stop => exact Or.inl (guard_stop label d next ctx req hd)

theorem Get_no_id (h : Handler) (ctx : Context) (req : Request)
    (hid : req.vars.lookup "id" = none) :
    h.Get ctx req = [Event.HttpError "No id given." 400] := by
  simp [Handler.Get, hid]

theorem Delete_no_id (h : Handler) (ctx : Context) (req : Request)
    (hid : req.vars.lookup "id" = none) :
    h.Delete ctx req = [Event.HttpError "No id given." 400] := by
  simp [Handler.Delete, hid]

theorem Get_with_id (h : Handler) (ctx : Context) (req : Request) (X : String)
    (hid : req.vars.lookup "id" = some X) :
    h.Get ctx req =
      guard (Event.IsAuthorized (permission X) "get" (some ((NewEnv req).Owner X)))
        (h.m.authorized (permission X) "get" (some ((NewEnv req).Owner X)))
        (fun _ _ => getBody h X) ctx req := by
  simp [Handler.Get, hid, Middleware.IsAuthorized, getBody]

theorem Delete_with_id (h : Handler) (ctx : Context) (req : Request) (X : String)
    (hid : req.vars.lookup "id" = some X) :
    h.Delete ctx req =
      guard (Event.IsAuthorized (permission X) "delete" (some ((NewEnv req).Owner X)))
        (h.m.authorized (permission X) "delete" (some ((NewEnv req).Owner X)))
        (fun _ _ => deleteBody h X) ctx req := by
  simp [Handler.Delete, hid, Middleware.IsAuthorized, deleteBody]

theorem ValidateStruct_true (rt : Runtime) (p : Payload)
    (hv : (ValidateStruct rt p).1 = true) : ValidateStruct rt p = (true, none) := by
  unfold ValidateStruct at hv ⊢
  split
  · rfl
  · rename_i hc
    simp [hc] at hv

theorem ValidateStruct_false (rt : Runtime) (p : Payload)
    (hv : (ValidateStruct rt p).1 = false) :
    ValidateStruct rt p = (false, rt.validationError p) := by
  unfold ValidateStruct at hv ⊢
  split
  · rename_i hc
    simp [hc] at hv
  · rfl

theorem Create_decode_error (h : Handler) (rt : Runtime) (ctx : Context) (req : Request)
    (err : Err) (hdec : Decode rt req.body Payload.zero = .error err) :
    h.Create rt ctx req = [Event.HttpError err 400] := by
  simp [Handler.Create, hdec]

theorem Create_invalid (h : Handler) (rt : Runtime) (ctx : Context) (req : Request)
    (p : Payload) (hdec : Decode rt req.body Payload.zero = .ok p)
    (hv : (ValidateStruct rt p).1 = false) :
    h.Create rt ctx req =
      match rt.validationError p with
      | some err => [Event.HttpError err 400]
      | none => [Event.httpError "Payload did not validate." 400] := by
  simp only [Handler.Create, hdec, ValidateStruct_false rt p hv]
  cases rt.validationError p <;> rfl

theorem Create_valid (h : Handler) (rt : Runtime) (ctx : Context) (req : Request)
    (p : Payload) (hdec : Decode rt req.body Payload.zero = .ok p)
    (hv : (ValidateStruct rt p).1 = true) :
    h.Create rt ctx req = createBody h rt p := by
  simp only [Handler.Create, hdec, ValidateStruct_true rt p hv]

theorem createBody_no_guard (h : Handler) (rt : Runtime) (p : Payload) :
    ∀ e ∈ createBody h rt p, e.isGuard = false := by
  intro e he
  simp only [createBody] at he
  split at he <;> simp at he <;> rcases he with he | he <;> subst he <;> rfl

theorem Create_no_guard (h : Handler) (rt : Runtime) (ctx : Context) (req : Request) :
    ∀ e ∈ h.Create rt ctx req, e.isGuard = false := by
  intro e he
  cases hdec : Decode rt req.body Payload.zero with
  | error err =>
    rw [Create_decode_error h rt ctx req err hdec] at he
    simp at he; subst he; rfl
  | ok p =>
    cases hv : (ValidateStruct rt p).1 with
    | false =>
      rw [Create_invalid h rt ctx req p hdec hv] at he
      split at he <;> simp at he <;> subst he <;> rfl
    | true =>
      rw [Create_valid h rt ctx req p hdec hv] at he
      exact createBody_no_guard h rt p e he

theorem getBody_no_guard (h : Handler) (id : String) :
    ∀ e ∈ getBody h id, e.isGuard = false := by
  intro e he
  simp only [getBody] at he
  split at he <;> simp at he <;> rcases he with he | he <;> subst he <;> rfl

theorem deleteBody_no_guard (h : Handler) (id : String) :
    ∀ e ∈ deleteBody h id, e.isGuard = false := by
  intro e he
  simp only [deleteBody] at he
  split at he <;> simp at he <;> rcases he with he | he <;> subst he <;> rfl

theorem Inner_guard (p a : String) (env : Option Env)
    (d : Context → Request → Decision) (next : ContextHandler)
    (hnext : ∀ c r, ∀ e ∈ next c r, e.isGuard = false) (ctx : Context) (req : Request) :
    Inner (guard (Event.IsAuthorized p a env) d next ctx req) := by
  rcases guard_cases (Event.IsAuthorized p a env) d next ctx req with hg | ⟨c, r, hg⟩
  · exact Or.inr (Or.inl ⟨p, a, env, hg⟩)
  · exact Or.inr (Or.inr ⟨p, a, env, next c r, hg, hnext c r⟩)

theorem Inner_Get (h : Handler) (ctx : Context) (req : Request) : Inner (h.Get ctx req) := by
  cases hid : req.vars.lookup "id" with
  | none =>
    rw [Get_no_id h ctx req hid]
    exact Or.inl (by simp [Event.isGuard, Event.isStorage])
  | some X =>
    rw [Get_with_id h ctx req X hid]
    exact Inner_guard _ _ _ _ _ (fun _ _ => getBody_no_guard h X) ctx req

theorem Inner_Delete (h : Handler) (ctx : Context) (req : Request) :
    Inner (h.Delete ctx req) := by
  cases hid : req.vars.lookup "id" with
  | none =>
    rw [Delete_no_id h ctx req hid]
    exact Or.inl (by simp [Event.isGuard, Event.isStorage])
  | some X =>
    rw [Delete_with_id h ctx req X hid]
    exact Inner_guard _ _ _ _ _ (fun _ _ => deleteBody_no_guard h X) ctx req

/-- Every route is the extractor, then `IsAuthenticated`, then a handler. -/
theorem route_serve (h : Handler) (rt : Runtime) (ex : Context → Request → Decision)
    (r : Route) (hr : r ∈ h.SetRoutes rt ex) :
    ∃ T : ContextHandler,
      (∀ req, r.serve req =
        guard Event.extractor ex (guard Event.IsAuthenticated h.m.authenticated T)
          Background req) ∧
      ((r.method = "POST" ∧ T = guard (Event.IsAuthorized "rn:hydra:accounts" "create" none)
          (h.m.authorized "rn:hydra:accounts" "create" none) (h.Create rt)) ∨
       (r.method = "GET" ∧ T = h.Get) ∨
       (r.method = "DELETE" ∧ T = h.Delete)) := by
  simp only [Handler.SetRoutes, List.mem_cons, List.mem_singleton, List.not_mem_nil,
    or_false] at hr
  rcases hr with hr | hr | hr <;> subst hr
  · exact ⟨_, fun _ => rfl, Or.inl ⟨rfl, rfl⟩⟩
  · exact ⟨_, fun _ => rfl, Or.inr (Or.inl ⟨rfl, rfl⟩)⟩
  · exact ⟨_, fun _ => rfl, Or.inr (Or.inr ⟨rfl, rfl⟩)⟩

/-- The three shapes of a served request. -/
theorem serve_cases (h : Handler) (rt : Runtime) (ex : Context → Request → Decision)
    (r : Route) (hr : r ∈ h.SetRoutes rt ex) (req : Request) :
    r.serve req = [Event.extractor false] ∨
    r.serve req = [Event.extractor true, Event.IsAuthenticated false] ∨
    ∃ t, r.serve req = Event.extractor true :: Event.IsAuthenticated true :: t ∧ Inner t := by
  obtain ⟨T, hserve, hT⟩ := route_serve h rt ex r hr
  have hInner : ∀ c q, Inner (T c q) := by
    intro c q
    rcases hT with ⟨_, hT⟩ | ⟨_, hT⟩ | ⟨_, hT⟩ <;> subst hT
    · exact Inner_guard _ _ _ _ _ (fun c r => Create_no_guard h rt c r) c q
    · exact Inner_Get h c q
    · exact Inner_Delete h c q
  rw [hserve req]
  rcases guard_cases Event.extractor ex
      (guard Event.IsAuthenticated h.m.authenticated T) Background req with hg | ⟨c, q, hg⟩
  · exact Or.inl hg
  · rw [hg]
    rcases guard_cases Event.IsAuthenticated h.m.authenticated T c q with hg2 | ⟨c2, q2, hg2⟩
    · exact Or.inr (Or.inl (by rw [hg2]))
    · exact Or.inr (Or.inr ⟨T c2 q2, by rw [hg2], hInner c2 q2⟩)

theorem isGuard_of_isAuthorized (e : Event) (he : e.isAuthorized = true) :
    e.isGuard = true := by
  cases e <;> simp_all [Event.isAuthorized, Event.isGuard]

theorem Before.here {a b : Event} {xs : List Event} (hb : b ∈ xs) : Before a b (a :: xs) := by
  obtain ⟨mid, post, hxs⟩ := List.append_of_mem hb
  exact ⟨[], mid, post, by rw [hxs]; rfl⟩

theorem Before.cons {a b x : Event} {xs : List Event} (hab : Before a b xs) :
    Before a b (x :: xs) := by
  obtain ⟨pre, mid, post, hxs⟩ := hab
  exact ⟨x :: pre, mid, post, by rw [hxs]; rfl⟩

theorem permission_ne_collection (id : String) : permission id ≠ "rn:hydra:accounts" := by
  intro heq
  have hlen := congrArg (fun s : String => s.data.length) heq
  have h1 : "rn:hydra:accounts:".data.length = 18 := by decide
  have h2 : "rn:hydra:accounts".data.length = 17 := by decide
  simp only [permission_data, List.length_append, h1, h2] at hlen
  omega

/-- The shapes of a request served by the `POST` route. -/
theorem post_serve_cases (h : Handler) (rt : Runtime) (ex : Context → Request → Decision)
    (r : Route) (hr : r ∈ h.SetRoutes rt ex) (hm : r.method = "POST") (req : Request) :
    r.serve req = [Event.extractor false] ∨
    r.serve req = [Event.extractor true, Event.IsAuthenticated false] ∨
    r.serve req = [Event.extractor true, Event.IsAuthenticated true,
      Event.IsAuthorized "rn:hydra:accounts" "create" none false] ∨
    ∃ c q, r.serve req = Event.extractor true :: Event.IsAuthenticated true ::
      Event.IsAuthorized "rn:hydra:accounts" "create" none true :: h.Create rt c q := by
  obtain ⟨T, hserve, hT⟩ := route_serve h rt ex r hr
  rcases hT with ⟨_, hT⟩ | ⟨hm2, _⟩ | ⟨hm2, _⟩
  · subst hT
    rw [hserve req]
    rcases guard_cases Event.extractor ex _ Background req with hg | ⟨c, q, hg⟩
    · exact Or.inl hg
    · rw [hg]
      rcases guard_cases Event.IsAuthenticated h.m.authenticated _ c q with hg2 | ⟨c2, q2, hg2⟩
      · exact Or.inr (Or.inl (by rw [hg2]))
      · rw [hg2]
        rcases guard_cases (Event.IsAuthorized "rn:hydra:accounts" "create" none)
            (h.m.authorized "rn:hydra:accounts" "create" none) (h.Create rt) c2 q2
          with hg3 | ⟨c3, q3, hg3⟩
        · exact Or.inr (Or.inr (Or.inl (by rw [hg3])))
        · exact Or.inr (Or.inr (Or.inr ⟨c3, q3, by rw [hg3]⟩))
  · rw [hm] at hm2
    exact absurd hm2 (by decide)
  · rw [hm] at hm2
    exact absurd hm2 (by decide)

/-- On the `POST` route every `IsAuthorized` evaluation is the collection one. -/
theorem post_authorized_event (h : Handler) (rt : Runtime)
    (ex : Context → Request → Decision) (r : Route) (hr : r ∈ h.SetRoutes rt ex)
    (hm : r.method = "POST") (req : Request) (e : Event) (he : e ∈ r.serve req)
    (hb : e.isAuthorized = true) :
    ∃ b, e = Event.IsAuthorized "rn:hydra:accounts" "create" none b := by
  rcases post_serve_cases h rt ex r hr hm req with hs | hs | hs | ⟨c, q, hs⟩ <;>
    rw [hs] at he
  · simp only [List.mem_singleton] at he
    subst he
    simp [Event.isAuthorized] at hb
  · simp only [List.mem_cons, List.mem_singleton, List.not_mem_nil, or_false] at he
    rcases he with rfl | rfl <;> simp [Event.isAuthorized] at hb
  · simp only [List.mem_cons, List.mem_singleton, List.not_mem_nil, or_false] at he
    rcases he with rfl | rfl | rfl
    · simp [Event.isAuthorized] at hb
    · simp [Event.isAuthorized] at hb
    · exact ⟨false, rfl⟩
  · simp only [List.mem_cons] at he
    rcases he with rfl | rfl | rfl | he
    · simp [Event.isAuthorized] at hb
    · simp [Event.isAuthorized] at hb
    · exact ⟨true, rfl⟩
    · have := Create_no_guard h rt c q e he
      rw [isGuard_of_isAuthorized e hb] at this
      exact absurd this (by decide)

/-- The shapes of a request served through the extractor and `IsAuthenticated`. -/
theorem chain_cases (ex auth : Context → Request → Decision) (T : ContextHandler)
    (req : Request) :
    guard Event.extractor ex (guard Event.IsAuthenticated auth T) Background req =
      [Event.extractor false] ∨
    guard Event.extractor ex (guard Event.IsAuthenticated auth T) Background req =
      [Event.extractor true, Event.IsAuthenticated false] ∨
    ∃ c q, guard Event.extractor ex (guard Event.IsAuthenticated auth T) Background req =
      Event.extractor true :: Event.IsAuthenticated true :: T c q := by
  rcases guard_cases Event.extractor ex (guard Event.IsAuthenticated auth T) Background req
    with hg | ⟨c, q, hg⟩
  · exact Or.inl hg
  · rw [hg]
    rcases guard_cases Event.IsAuthenticated auth T c q with hg2 | ⟨c2, q2, hg2⟩
    · exact Or.inr (Or.inl (by rw [hg2]))
    · exact Or.inr (Or.inr ⟨c2, q2, by rw [hg2]⟩)

/-- The terminal handler of the `GET` and `DELETE` routes. -/
theorem instance_route (h : Handler) (rt : Runtime) (ex : Context → Request → Decision)
    (r : Route) (hr : r ∈ h.SetRoutes rt ex) :
    (r.method = "GET" → ∀ req, r.serve req =
      guard Event.extractor ex (guard Event.IsAuthenticated h.m.authenticated h.Get)
        Background req) ∧
    (r.method = "DELETE" → ∀ req, r.serve req =
      guard Event.extractor ex (guard Event.IsAuthenticated h.m.authenticated h.Delete)
        Background req) := by
  obtain ⟨T, hserve, hT⟩ := route_serve h rt ex r hr
  constructor <;> intro hm req <;> rw [hserve req] <;>
    rcases hT with ⟨hm2, hT⟩ | ⟨hm2, hT⟩ | ⟨hm2, hT⟩ <;>
    first
      | (rw [hm] at hm2; exact absurd hm2 (by decide))
      | (subst hT; rfl)

/-- What `Get` does for a request carrying the route id `X`. -/
theorem Get_trace (h : Handler) (ctx : Context) (req : Request) (X : String)
    (hid : req.vars.lookup "id" = some X) :
    (h.m.authorized (permission X) "get" (some ((NewEnv req).Owner X)) ctx req = .stop ∧
      h.Get ctx req =
        [Event.IsAuthorized (permission X) "get" (some ((NewEnv req).Owner X)) false]) ∨
    ((∃ c q, h.m.authorized (permission X) "get" (some ((NewEnv req).Owner X)) ctx req =
        .next c q) ∧
      h.Get ctx req =
        Event.IsAuthorized (permission X) "get" (some ((NewEnv req).Owner X)) true ::
          getBody h X) := by
  rw [Get_with_id h ctx req X hid]
  cases hd : h.m.authorized (permission X) "get" (some ((NewEnv req).Owner X)) ctx req with
  | next c q => exact Or.inr ⟨⟨c, q, rfl⟩, guard_next _ _ _ ctx req c q hd⟩
  | stop => exact Or.inl ⟨rfl, guard_stop _ _ _ ctx req hd⟩

/-- What `Delete` does for a request carrying the route id `X`. -/
theorem Delete_trace (h : Handler) (ctx : Context) (req : Request) (X : String)
    (hid : req.vars.lookup "id" = some X) :
    (h.m.authorized (permission X) "delete" (some ((NewEnv req).Owner X)) ctx req = .stop ∧
      h.Delete ctx req =
        [Event.IsAuthorized (permission X) "delete" (some ((NewEnv req).Owner X)) false]) ∨
    ((∃ c q, h.m.authorized (permission X) "delete" (some ((NewEnv req).Owner X)) ctx req =
        .next c q) ∧
      h.Delete ctx req =
        Event.IsAuthorized (permission X) "delete" (some ((NewEnv req).Owner X)) true ::
          deleteBody h X) := by
  rw [Delete_with_id h ctx req X hid]
  cases hd : h.m.authorized (permission X) "delete" (some ((NewEnv req).Owner X)) ctx req with
  | next c q => exact Or.inr ⟨⟨c, q, rfl⟩, guard_next _ _ _ ctx req c q hd⟩
  | stop => exact Or.inl ⟨rfl, guard_stop _ _ _ ctx req hd⟩

theorem getBody_storage (h : Handler) (X : String) :
    ∀ e ∈ getBody h X, e.isStorage = true → e = Event.StorageGet X := by
  intro e he hb
  simp only [getBody] at he
  split at he <;> simp at he <;> rcases he with he | he <;> subst he <;>
    first | rfl | simp [Event.isStorage] at hb

theorem deleteBody_storage (h : Handler) (X : String) :
    ∀ e ∈ deleteBody h X, e.isStorage = true → e = Event.StorageDelete X := by
  intro e he hb
  simp only [deleteBody] at he
  split at he <;> simp at he <;> rcases he with he | he <;> subst he <;>
    first | rfl | simp [Event.isStorage] at hb

theorem Get_authorized_event (h : Handler) (c : Context) (q : Request)
    (p a : String) (env : Option Env) (b : Bool)
    (he : Event.IsAuthorized p a env b ∈ h.Get c q) :
    ∃ Y, q.vars.lookup "id" = some Y ∧ p = permission Y ∧ a = "get" ∧
      env = some ((NewEnv q).Owner Y) ∧
      ∀ e ∈ h.Get c q, e.isStorage = true → e = Event.StorageGet Y := by
  cases hid : q.vars.lookup "id" with
  | none =>
    rw [Get_no_id h c q hid] at he
    simp at he
  | some Y =>
    refine ⟨Y, rfl, ?_⟩
    rcases Get_trace h c q Y hid with ⟨_, ht⟩ | ⟨_, ht⟩ <;> rw [ht] at he ⊢
    · simp only [List.mem_singleton, Event.IsAuthorized.injEq] at he
      exact ⟨he.1, he.2.1, he.2.2.1, by simp [Event.isStorage]⟩
    · simp only [List.mem_cons, Event.IsAuthorized.injEq] at he
      rcases he with he | he
      · refine ⟨he.1, he.2.1, he.2.2.1, ?_⟩
        intro e hmem hb
        simp only [List.mem_cons] at hmem
        rcases hmem with rfl | hmem
        · simp [Event.isStorage] at hb
        · exact getBody_storage h Y e hmem hb
      · have := getBody_no_guard h Y _ he
        simp [Event.isGuard] at this

theorem Delete_authorized_event (h : Handler) (c : Context) (q : Request)
    (p a : String) (env : Option Env) (b : Bool)
    (he : Event.IsAuthorized p a env b ∈ h.Delete c q) :
    ∃ Y, q.vars.lookup "id" = some Y ∧ p = permission Y ∧ a = "delete" ∧
      env = some ((NewEnv q).Owner Y) ∧
      ∀ e ∈ h.Delete c q, e.isStorage = true → e = Event.StorageDelete Y := by
  cases hid : q.vars.lookup "id" with
  | none =>
    rw [Delete_no_id h c q hid] at he
    simp at he
  | some Y =>
    refine ⟨Y, rfl, ?_⟩
    rcases Delete_trace h c q Y hid with ⟨_, ht⟩ | ⟨_, ht⟩ <;> rw [ht] at he ⊢
    · simp only [List.mem_singleton, Event.IsAuthorized.injEq] at he
      exact ⟨he.1, he.2.1, he.2.2.1, by simp [Event.isStorage]⟩
    · simp only [List.mem_cons, Event.IsAuthorized.injEq] at he
      rcases he with he | he
      · refine ⟨he.1, he.2.1, he.2.2.1, ?_⟩
        intro e hmem hb
        simp only [List.mem_cons] at hmem
        rcases hmem with rfl | hmem
        · simp [Event.isStorage] at hb
        · exact deleteBody_storage h Y e hmem hb
      · have := deleteBody_no_guard h Y _ he
        simp [Event.isGuard] at this

/-- An `IsAuthorized` evaluation or a storage call in a request served through
the extractor and `IsAuthenticated` is made by the terminal handler, on the
request the guards passed on. -/
theorem chain_terminal (ex auth : Context → Request → Decision) (T : ContextHandler)
    (req : Request) (e : Event)
    (he : e ∈ guard Event.extractor ex (guard Event.IsAuthenticated auth T) Background req)
    (hb : e.isAuthorized = true ∨ e.isStorage = true) :
    ∃ c q, guard Event.extractor ex (guard Event.IsAuthenticated auth T) Background req =
        Event.extractor true :: Event.IsAuthenticated true :: T c q ∧ e ∈ T c q := by
  rcases chain_cases ex auth T req with hs | hs | ⟨c, q, hs⟩ <;> rw [hs] at he
  · simp only [List.mem_singleton] at he
    subst he
    simp [Event.isAuthorized, Event.isStorage] at hb
  · simp only [List.mem_cons, List.mem_singleton, List.not_mem_nil, or_false] at he
    rcases he with rfl | rfl <;> simp [Event.isAuthorized, Event.isStorage] at hb
  · simp only [List.mem_cons] at he
    rcases he with rfl | rfl | he
    · simp [Event.isAuthorized, Event.isStorage] at hb
    · simp [Event.isAuthorized, Event.isStorage] at hb
    · exact ⟨c, q, hs, he⟩

theorem route_authorized_event (h : Handler) (rt : Runtime)
    (ex : Context → Request → Decision) (r : Route) (hr : r ∈ h.SetRoutes rt ex)
    (req : Request) (p a : String) (env : Option Env) (b : Bool)
    (he : Event.IsAuthorized p a env b ∈ r.serve req) :
    (r.method = "GET" →
      ∃ Y q, q.vars.lookup "id" = some Y ∧ p = permission Y ∧ a = "get" ∧
        env = some ((NewEnv q).Owner Y) ∧
        ∀ e ∈ r.serve req, e.isStorage = true → e = Event.StorageGet Y) ∧
    (r.method = "DELETE" →
      ∃ Y q, q.vars.lookup "id" = some Y ∧ p = permission Y ∧ a = "delete" ∧
        env = some ((NewEnv q).Owner Y) ∧
        ∀ e ∈ r.serve req, e.isStorage = true → e = Event.StorageDelete Y) := by
  constructor <;> intro hm
  · have hs := (instance_route h rt ex r hr).1 hm req
    rw [hs] at he ⊢
    obtain ⟨c, q, hshape, hmem⟩ := chain_terminal ex h.m.authenticated h.Get req _ he
      (Or.inl rfl)
    obtain ⟨Y, hid, hp, ha, henv, hst⟩ := Get_authorized_event h c q p a env b hmem
    refine ⟨Y, q, hid, hp, ha, henv, ?_⟩
    intro e hmem2 hb
    obtain ⟨c2, q2, hshape2, hmem3⟩ := chain_terminal ex h.m.authenticated h.Get req e hmem2
      (Or.inr hb)
    rw [hshape] at hshape2
    simp only [List.cons.injEq, true_and] at hshape2
    rw [← hshape2] at hmem3
    exact hst e hmem3 hb
  · have hs := (instance_route h rt ex r hr).2 hm req
    rw [hs] at he ⊢
    obtain ⟨c, q, hshape, hmem⟩ := chain_terminal ex h.m.authenticated h.Delete req _ he
      (Or.inl rfl)
    obtain ⟨Y, hid, hp, ha, henv, hst⟩ := Delete_authorized_event h c q p a env b hmem
    refine ⟨Y, q, hid, hp, ha, henv, ?_⟩
    intro e hmem2 hb
    obtain ⟨c2, q2, hshape2, hmem3⟩ :=
      chain_terminal ex h.m.authenticated h.Delete req e hmem2 (Or.inr hb)
    rw [hshape] at hshape2
    simp only [List.cons.injEq, true_and] at hshape2
    rw [← hshape2] at hmem3
    exact hst e hmem3 hb

theorem ValidateStruct_rejects (rt : Runtime) (p : Payload) :
    (ValidateStruct rt p).1 = false ↔ Rejected rt p := by
  have hempty : p.Password = "" → p.Password.utf8ByteSize < 6 := by
    intro hp
    rw [hp]
    decide
  unfold ValidateStruct Rejected validEmail validPassword validData ByteLength
  constructor
  · intro hv
    split at hv
    · simp at hv
    · rename_i hc
      simp only [Bool.and_eq_true, bne_iff_ne, ne_eq, decide_eq_true_eq, Bool.or_eq_true,
        beq_iff_eq, not_and, not_or, not_le] at hc
      by_cases h1 : p.Email = ""
      · exact Or.inl h1
      by_cases h2 : rt.IsEmail p.Email = true
      · by_cases h3 : p.Password = ""
        · exact Or.inr (Or.inr (Or.inl (hempty h3)))
        by_cases h4 : 6 ≤ p.Password.utf8ByteSize
        · by_cases h5 : p.Password.utf8ByteSize ≤ 254
          · have := hc ⟨⟨h1, h2⟩, h3, h4, h5⟩
            exact Or.inr (Or.inr (Or.inr (Or.inr ⟨this.1, by simpa using this.2⟩)))
          · exact Or.inr (Or.inr (Or.inr (Or.inl (by omega))))
        · exact Or.inr (Or.inr (Or.inl (by omega)))
      · exact Or.inr (Or.inl (by simpa using h2))
  · intro hr
    split
    · rename_i hc
      simp only [Bool.and_eq_true, bne_iff_ne, ne_eq, decide_eq_true_eq, Bool.or_eq_true,
        beq_iff_eq] at hc
      obtain ⟨⟨⟨h1, h2⟩, h3, h4, h5⟩, h6⟩ := hc
      rcases hr with hr | hr | hr | hr | ⟨hr, hr2⟩
      · exact absurd hr h1
      · rw [h2] at hr
        exact absurd hr (by decide)
      · omega
      · omega
      · rcases h6 with h6 | h6
        · exact absurd h6 hr
        · rw [h6] at hr2
          exact absurd hr2 (by decide)
    · rfl

/-! ## The permission namer -/

/-- C1: the instance permission namer is injective: distinct ids `X` and `Y`
give distinct permissions, and `permission X` is equal to itself for every id. -/
theorem permission_injective (X Y : String) (h : X ≠ Y) :
    permission X ≠ permission Y ∧ permission X = permission X := by
  refine ⟨fun heq => h ?_, rfl⟩
  have hd := congrArg String.data heq
  rw [permission_data, permission_data] at hd
  exact String.ext (List.append_cancel_left hd)

/-- Witness of C1 at an empty id and an id containing a colon. -/
theorem permission_injective_witness :
    "" ≠ "a:b" ∧ (permission "" ≠ permission "a:b" ∧ permission "" = permission "") :=
  ⟨by decide, permission_injective "" "a:b" (by decide)⟩


/-- C2: for every id, `permission id` is exactly `"rn:hydra:accounts:"` followed
by the id unchanged (a total function: it returns a string for every id); and
the permission every `IsAuthorized` guard of the `POST /accounts` route is built
with is exactly `"rn:hydra:accounts"`, with action `"create"` and no environment. -/
theorem permission_format (id : String) :
    permission id = "rn:hydra:accounts:" ++ id ∧
    (permission id).data = "rn:hydra:accounts:".data ++ id.data ∧
    ∀ (h : Handler) (rt : Runtime) (ex : Context → Request → Decision) (r : Route),
      r ∈ h.SetRoutes rt ex → r.method = "POST" →
      ∀ (req : Request) (p a : String) (env : Option Env) (b : Bool),
        Event.IsAuthorized p a env b ∈ r.serve req →
        p = "rn:hydra:accounts" ∧ a = "create" ∧ env = none := by
  refine ⟨permission_eq id, permission_data id, ?_⟩
  intro h rt ex r hr hm req p a env b he
  obtain ⟨b1, hb1⟩ := post_authorized_event h rt ex r hr hm req _ he rfl
  simp only [Event.IsAuthorized.injEq] at hb1
  exact ⟨hb1.1, hb1.2.1, hb1.2.2.1⟩

/-- C9: for every id, the empty one included, the instance permission differs
from the collection permission `"rn:hydra:accounts"`, and so from the permission
of every `IsAuthorized` guard evaluated on the `POST /accounts` route. -/
theorem instance_ne_collection (id : String) :
    permission id ≠ "rn:hydra:accounts" ∧
    ∀ (h : Handler) (rt : Runtime) (ex : Context → Request → Decision) (r : Route),
      r ∈ h.SetRoutes rt ex → r.method = "POST" →
      ∀ (req : Request) (p a : String) (env : Option Env) (b : Bool),
        Event.IsAuthorized p a env b ∈ r.serve req → permission id ≠ p := by
  refine ⟨permission_ne_collection id, ?_⟩
  intro h rt ex r hr hm req p a env b he
  obtain ⟨b1, hb1⟩ := post_authorized_event h rt ex r hr hm req _ he rfl
  simp only [Event.IsAuthorized.injEq] at hb1
  rw [hb1.1]
  exact permission_ne_collection id

theorem postRoute_trace : Sample.postRoute.serve Sample.goodCreate =
    [Event.extractor true, Event.IsAuthenticated true,
     Event.IsAuthorized "rn:hydra:accounts" "create" none true,
     Event.StorageCreate "u-1" "a@b.c" "secret1" "{}",
     Event.WriteCreatedJSON "/accounts/u-1"
       { id := "u-1", email := "a@b.c", password := "secret1", data := "{}" }] := by
  decide

/-- Witness of C2: the id `u1`, and the guard evaluated on the sample `POST` route. -/
theorem permission_format_witness :
    permission "u1" = "rn:hydra:accounts:" ++ "u1" ∧
    Sample.postRoute ∈ Sample.handler.SetRoutes Sample.runtime Sample.extractor ∧
    Sample.postRoute.method = "POST" ∧
    Event.IsAuthorized "rn:hydra:accounts" "create" none true ∈
      Sample.postRoute.serve Sample.goodCreate ∧
    ("rn:hydra:accounts" = "rn:hydra:accounts" ∧ "create" = "create" ∧
      (none : Option Env) = none) :=
  ⟨(permission_format "u1").1, List.head_mem _, rfl, by decide,
    (permission_format "u1").2.2 Sample.handler Sample.runtime Sample.extractor
      Sample.postRoute (List.head_mem _) rfl Sample.goodCreate _ _ _ true (by decide)⟩

/-- Witness of C9: the empty id against the guard of the sample `POST` route. -/
theorem instance_ne_collection_witness :
    Sample.postRoute ∈ Sample.handler.SetRoutes Sample.runtime Sample.extractor ∧
    Sample.postRoute.method = "POST" ∧
    Event.IsAuthorized "rn:hydra:accounts" "create" none true ∈
      Sample.postRoute.serve Sample.goodCreate ∧
    permission "" ≠ "rn:hydra:accounts" :=
  ⟨List.head_mem _, rfl, by decide,
    (instance_ne_collection "").2 Sample.handler Sample.runtime Sample.extractor
      Sample.postRoute (List.head_mem _) rfl Sample.goodCreate _ "create" none true
      (by decide)⟩

/-! ## Requests without a route id -/

/-- C3: a request reaching `Get` or `Delete` whose route variables hold no `id`
is answered with status 400 (the only status written), and the handler neither
builds or invokes an `IsAuthorized` guard nor calls the storage. -/
theorem missing_id_bad_request (h : Handler) (ctx : Context) (req : Request)
    (errCode : Err → Nat) (hid : req.vars.lookup "id" = none) :
    (responseStatus errCode (h.Get ctx req) = some 400 ∧
      statuses errCode (h.Get ctx req) = [400] ∧
      ∀ e ∈ h.Get ctx req, e.isAuthorized = false ∧ e.isStorage = false) ∧
    (responseStatus errCode (h.Delete ctx req) = some 400 ∧
      statuses errCode (h.Delete ctx req) = [400] ∧
      ∀ e ∈ h.Delete ctx req, e.isAuthorized = false ∧ e.isStorage = false) := by
  rw [Get_no_id h ctx req hid, Delete_no_id h ctx req hid]
  simp [responseStatus, statuses, Event.status?, Event.isAuthorized, Event.isStorage]

/-- Witness of C3: a request with no route variables at all. -/
theorem missing_id_bad_request_witness :
    (([] : Vars).lookup "id" = none) ∧
    responseStatus Sample.errCode
      ((NewHandler Sample.storage Sample.openMiddleware).Get Background
        { vars := [], body := "" }) = some 400 :=
  ⟨rfl, (missing_id_bad_request (NewHandler Sample.storage Sample.openMiddleware) Background
    { vars := [], body := "" } Sample.errCode rfl).1.1⟩

/-! ## Requests with a route id -/

/-- C4: a request reaching `Get` (or `Delete`) with route id `X` evaluates first,
and only, the `IsAuthorized` guard built with permission `permission X`, action
`"get"` (or `"delete"`) and an environment whose owner is `X`; every storage call
it makes is `Get X` (or `Delete X`), and that call is made whenever the guard
invokes its successor. On the `GET` and `DELETE` routes of `SetRoutes` every
`IsAuthorized` evaluation has this form, for the route id `Y` of the request
that reached the handler, and every storage call of the request targets `Y`. -/
theorem instance_authorizer (h : Handler) (ctx : Context) (req : Request) (X : String)
    (hid : req.vars.lookup "id" = some X) :
    ((NewEnv req).Owner X).owner = some X ∧
    ((∃ b rest, h.Get ctx req =
        Event.IsAuthorized (permission X) "get" (some ((NewEnv req).Owner X)) b :: rest ∧
        ∀ e ∈ rest, e.isGuard = false) ∧
      (∀ e ∈ h.Get ctx req, e.isStorage = true → e = Event.StorageGet X) ∧
      (∀ c q, h.m.authorized (permission X) "get" (some ((NewEnv req).Owner X)) ctx req =
        .next c q → Event.StorageGet X ∈ h.Get ctx req)) ∧
    ((∃ b rest, h.Delete ctx req =
        Event.IsAuthorized (permission X) "delete" (some ((NewEnv req).Owner X)) b :: rest ∧
        ∀ e ∈ rest, e.isGuard = false) ∧
      (∀ e ∈ h.Delete ctx req, e.isStorage = true → e = Event.StorageDelete X) ∧
      (∀ c q, h.m.authorized (permission X) "delete" (some ((NewEnv req).Owner X)) ctx req =
        .next c q → Event.StorageDelete X ∈ h.Delete ctx req)) ∧
    (∀ (rt : Runtime) (ex : Context → Request → Decision) (r : Route),
      r ∈ h.SetRoutes rt ex →
      ∀ (rq : Request) (p a : String) (env : Option Env) (b : Bool),
        Event.IsAuthorized p a env b ∈ r.serve rq →
        (r.method = "GET" →
          ∃ Y q, q.vars.lookup "id" = some Y ∧ p = permission Y ∧ a = "get" ∧
            env = some ((NewEnv q).Owner Y) ∧
            ∀ e ∈ r.serve rq, e.isStorage = true → e = Event.StorageGet Y) ∧
        (r.method = "DELETE" →
          ∃ Y q, q.vars.lookup "id" = some Y ∧ p = permission Y ∧ a = "delete" ∧
            env = some ((NewEnv q).Owner Y) ∧
            ∀ e ∈ r.serve rq, e.isStorage = true → e = Event.StorageDelete Y)) := by
  refine ⟨rfl, ?_, ?_, fun rt ex r hr rq p a env b he =>
    route_authorized_event h rt ex r hr rq p a env b he⟩
  · rcases Get_trace h ctx req X hid with ⟨hd, ht⟩ | ⟨_, ht⟩
    · rw [ht]
      refine ⟨⟨false, [], rfl, by simp⟩, by simp [Event.isStorage], ?_⟩
      intro c q hn
      rw [hd] at hn
      exact absurd hn (by simp)
    · rw [ht]
      refine ⟨⟨true, getBody h X, rfl, getBody_no_guard h X⟩, ?_, ?_⟩
      · intro e he hb
        simp only [List.mem_cons] at he
        rcases he with rfl | he
        · simp [Event.isStorage] at hb
        · exact getBody_storage h X e he hb
      · intro _ _ _
        simp [getBody]
  · rcases Delete_trace h ctx req X hid with ⟨hd, ht⟩ | ⟨_, ht⟩
    · rw [ht]
      refine ⟨⟨false, [], rfl, by simp⟩, by simp [Event.isStorage], ?_⟩
      intro c q hn
      rw [hd] at hn
      exact absurd hn (by simp)
    · rw [ht]
      refine ⟨⟨true, deleteBody h X, rfl, deleteBody_no_guard h X⟩, ?_, ?_⟩
      · intro e he hb
        simp only [List.mem_cons] at he
        rcases he with rfl | he
        · simp [Event.isStorage] at hb
        · exact deleteBody_storage h X e he hb
      · intro _ _ _
        simp [deleteBody]

/-- C8: a `Delete` request with route id `X` whose `IsAuthorized` guard invokes
its successor calls the storage exactly once, with `Delete X`; when that
succeeds the only status written is 202 and nothing is written to the body;
when it fails the only status written is 500, and 202 is never written. -/
theorem delete_once (h : Handler) (ctx : Context) (req : Request) (X : String)
    (errCode : Err → Nat) (c : Context) (q : Request)
    (hid : req.vars.lookup "id" = some X)
    (hauth : h.m.authorized (permission X) "delete" (some ((NewEnv req).Owner X)) ctx req =
      .next c q) :
    (h.Delete ctx req).filter Event.isStorage = [Event.StorageDelete X] ∧
    (h.s.Delete X = none →
      responseStatus errCode (h.Delete ctx req) = some 202 ∧
      statuses errCode (h.Delete ctx req) = [202] ∧
      ∀ e ∈ h.Delete ctx req, e.writesBody = false) ∧
    (∀ err, h.s.Delete X = some err →
      responseStatus errCode (h.Delete ctx req) = some 500 ∧
      statuses errCode (h.Delete ctx req) = [500] ∧
      Event.WriteHeader 202 ∉ h.Delete ctx req) := by
  rw [Delete_with_id h ctx req X hid, guard_next _ _ _ ctx req c q hauth]
  cases hdel : h.s.Delete X with
  | none =>
    simp [deleteBody, hdel, List.filter, Event.isStorage, responseStatus, statuses,
      Event.status?, Event.writesBody]
  | some err =>
    simp [deleteBody, hdel, List.filter, Event.isStorage, responseStatus, statuses,
      Event.status?]

/-! ## Creating an account -/

/-- C6: a request reaching `Create` whose body does not decode as JSON, or whose
decoded payload fails validation (empty or invalid email, password length
outside 6..254, or non-empty data that is not JSON), is answered with status
400, the only status written, and no storage operation is called. -/
theorem create_rejects_invalid (h : Handler) (rt : Runtime) (ctx : Context)
    (req : Request) (errCode : Err → Nat)
    (hbad : (∃ err, Decode rt req.body Payload.zero = .error err) ∨
      ∃ p, Decode rt req.body Payload.zero = .ok p ∧
        (p.Email = "" ∨ rt.IsEmail p.Email = false ∨
         p.Password.utf8ByteSize < 6 ∨ 254 < p.Password.utf8ByteSize ∨
         (p.Data ≠ "" ∧ rt.IsJSON p.Data = false))) :
    responseStatus errCode (h.Create rt ctx req) = some 400 ∧
    statuses errCode (h.Create rt ctx req) = [400] ∧
    ∀ e ∈ h.Create rt ctx req, e.isStorage = false := by
  rcases hbad with ⟨err, hdec⟩ | ⟨p, hdec, hrej⟩
  · rw [Create_decode_error h rt ctx req err hdec]
    simp [responseStatus, statuses, Event.status?, Event.isStorage]
  · rw [Create_invalid h rt ctx req p hdec ((ValidateStruct_rejects rt p).2 hrej)]
    cases rt.validationError p <;>
      simp [responseStatus, statuses, Event.status?, Event.isStorage]

/-- C7, amended: a valid `Create` request calls the storage exactly once, with
`Create` on the newly generated id and the payload's email and password; when
that succeeds the response is 201 with the created account and a `Location`
header equal to `"/accounts/"` followed by the id of the account the storage
returned (the newly generated id whenever the returned account carries it); when
it fails, `WriteCreatedJSON` is not called and the error goes to `WriteError`. -/
theorem create_valid (h : Handler) (rt : Runtime) (ctx : Context) (req : Request)
    (errCode : Err → Nat) (p : Payload)
    (hdec : Decode rt req.body Payload.zero = .ok p)
    (hv : (ValidateStruct rt p).1 = true) :
    (h.Create rt ctx req).filter Event.isStorage =
      [Event.StorageCreate rt.uuidNew p.Email p.Password (createData p)] ∧
    (∀ user, h.s.Create rt.uuidNew p.Email p.Password (createData p) = .ok user →
      h.Create rt ctx req =
        [Event.StorageCreate rt.uuidNew p.Email p.Password (createData p),
         Event.WriteCreatedJSON ("/accounts/" ++ user.GetID) user] ∧
      statuses errCode (h.Create rt ctx req) = [201] ∧
      (h.Create rt ctx req).filterMap Event.location? = ["/accounts/" ++ user.GetID] ∧
      (user.GetID = rt.uuidNew →
        (h.Create rt ctx req).filterMap Event.location? = ["/accounts/" ++ rt.uuidNew])) ∧
    (∀ err, h.s.Create rt.uuidNew p.Email p.Password (createData p) = .error err →
      h.Create rt ctx req =
        [Event.StorageCreate rt.uuidNew p.Email p.Password (createData p),
         Event.WriteError err] ∧
      (h.Create rt ctx req).filterMap Event.location? = [] ∧
      statuses errCode (h.Create rt ctx req) = [errCode err]) := by
  rw [Create_valid h rt ctx req p hdec hv]
  cases hc : h.s.Create rt.uuidNew p.Email p.Password (createData p) with
  | error err =>
    simp [createBody, hc, List.filter, Event.isStorage, statuses, Event.status?,
      Event.location?]
  | ok user =>
    simp only [createBody, hc]
    refine ⟨by simp [List.filter, Event.isStorage], ?_, by simp⟩
    intro u hu
    simp only [Except.ok.injEq] at hu
    subst hu
    refine ⟨rfl, by simp [statuses, Event.status?], by simp [Event.location?], ?_⟩
    intro hid
    simp [Event.location?, hid]

/-- C10: for a valid `Create` payload the storage is called once, and the data
argument it receives is `"{}"` when the body's `data` member is absent or the
empty string, and the member's string unchanged otherwise; it is never empty. -/
theorem create_data_default (h : Handler) (rt : Runtime) (ctx : Context) (req : Request)
    (o : JSONObject) (hparse : rt.parseJSON req.body = .ok o)
    (hv : (ValidateStruct rt (Payload.zero.fill o)).1 = true) :
    ∃ data,
      (h.Create rt ctx req).filter Event.isStorage =
        [Event.StorageCreate rt.uuidNew (o.email.getD "") (o.password.getD "") data] ∧
      (o.data = none ∨ o.data = some "" → data = "{}") ∧
      (∀ d, o.data = some d → d ≠ "" → data = d) ∧
      data ≠ "" := by
  have hdec : Decode rt req.body Payload.zero = .ok (Payload.zero.fill o) := by
    simp [Decode, hparse]
  rw [Create_valid h rt ctx req _ hdec hv]
  refine ⟨createData (Payload.zero.fill o), ?_, ?_, ?_, ?_⟩
  · simp only [createBody]
    split <;> simp [List.filter, Event.isStorage, Payload.fill, Payload.zero]
  · intro hd
    rcases hd with hd | hd <;> simp [createData, Payload.fill, Payload.zero, hd]
  · intro d hd hne
    simp [createData, Payload.fill, Payload.zero, hd, hne]
  · simp only [createData]
    split
    · decide
    · assumption

/-! ## The guard chain of the registered routes -/

/-- C5: short-circuit law over the three routes of `SetRoutes`. For every
request: when the `IsAuthenticated` guard did not invoke its successor (it
refused, or was never reached), no `IsAuthorized` guard is evaluated and no
storage operation is called; every `IsAuthorized` evaluation comes after
`IsAuthenticated` invoked its successor; a refusing `IsAuthorized` guard leaves
the storage uncalled; and every storage call comes after an `IsAuthorized` guard
invoked its successor, itself after `IsAuthenticated` invoked its own. -/
theorem short_circuit (h : Handler) (rt : Runtime) (ex : Context → Request → Decision)
    (r : Route) (hr : r ∈ h.SetRoutes rt ex) (req : Request) :
    (Event.IsAuthenticated true ∉ r.serve req →
      ∀ e ∈ r.serve req, e.isAuthorized = false ∧ e.isStorage = false) ∧
    (Event.IsAuthenticated false ∈ r.serve req →
      ∀ e ∈ r.serve req, e.isAuthorized = false ∧ e.isStorage = false) ∧
    (∀ e ∈ r.serve req, e.isAuthorized = true →
      Before (Event.IsAuthenticated true) e (r.serve req)) ∧
    (∀ p a env, Event.IsAuthorized p a env false ∈ r.serve req →
      ∀ e ∈ r.serve req, e.isStorage = false) ∧
    (∀ e ∈ r.serve req, e.isStorage = true →
      ∃ p a env,
        Before (Event.IsAuthenticated true) (Event.IsAuthorized p a env true) (r.serve req) ∧
        Before (Event.IsAuthorized p a env true) e (r.serve req)) := by
  rcases serve_cases h rt ex r hr req with hs | hs | ⟨t, hs, ht⟩
  · rw [hs]
    simp [Event.isAuthorized, Event.isStorage]
  · rw [hs]
    simp [Event.isAuthorized, Event.isStorage]
  · rw [hs]
    rcases ht with hnone | ⟨p, a, env, rfl⟩ | ⟨p, a, env, rest, rfl, hrest⟩
    · have hna : ∀ e ∈ t, e.isAuthorized = false := by
        intro e he
        cases hb : e.isAuthorized with
        | false => rfl
        | true =>
          have := (hnone e he).1
          rw [isGuard_of_isAuthorized e hb] at this
          exact absurd this (by decide)
      refine ⟨by simp, ?_, ?_, ?_, ?_⟩
      · intro hmem
        simp only [List.mem_cons, reduceCtorEq, false_or, Event.IsAuthenticated.injEq,
          Bool.false_eq_true] at hmem
        have := (hnone _ hmem).1
        simp [Event.isGuard] at this
      · intro e he hb
        simp only [List.mem_cons] at he
        rcases he with rfl | rfl | he
        · simp [Event.isAuthorized] at hb
        · simp [Event.isAuthorized] at hb
        · rw [hna e he] at hb
          exact absurd hb (by decide)
      · intro p a env hmem
        simp only [List.mem_cons, reduceCtorEq, false_or] at hmem
        have := (hnone _ hmem).1
        simp [Event.isGuard] at this
      · intro e he hb
        simp only [List.mem_cons] at he
        rcases he with rfl | rfl | he
        · simp [Event.isStorage] at hb
        · simp [Event.isStorage] at hb
        · rw [(hnone e he).2] at hb
          exact absurd hb (by decide)
    · refine ⟨by simp, by simp, ?_, ?_, ?_⟩
      · intro e he hb
        simp only [List.mem_cons, List.mem_singleton, List.not_mem_nil, or_false] at he
        rcases he with rfl | rfl | rfl
        · simp [Event.isAuthorized] at hb
        · simp [Event.isAuthorized] at hb
        · exact Before.cons (Before.here (by simp))
      · intro _ _ _ _
        simp [Event.isStorage]
      · simp [Event.isStorage]
    · have hns : ∀ b, Event.IsAuthenticated b ∉ rest := by
        intro b hmem
        have := hrest _ hmem
        simp [Event.isGuard] at this
      refine ⟨by simp, ?_, ?_, ?_, ?_⟩
      · intro hmem
        simp only [List.mem_cons, reduceCtorEq, false_or, Event.IsAuthenticated.injEq,
          Bool.false_eq_true] at hmem
        exact absurd hmem (hns false)
      · intro e he hb
        simp only [List.mem_cons] at he
        rcases he with rfl | rfl | rfl | he
        · simp [Event.isAuthorized] at hb
        · simp [Event.isAuthorized] at hb
        · exact Before.cons (Before.here (by simp))
        · have := hrest e he
          rw [isGuard_of_isAuthorized e hb] at this
          exact absurd this (by decide)
      · intro p1 a1 env1 hmem
        simp only [List.mem_cons, reduceCtorEq, false_or, Event.IsAuthorized.injEq,
          Bool.false_eq_true, and_false] at hmem
        have := hrest _ hmem
        simp [Event.isGuard] at this
      · intro e he hb
        simp only [List.mem_cons] at he
        rcases he with rfl | rfl | rfl | he
        · simp [Event.isStorage] at hb
        · simp [Event.isStorage] at hb
        · simp [Event.isStorage] at hb
        · exact ⟨p, a, env, Before.cons (Before.here (by simp)),
            Before.cons (Before.cons (Before.here he))⟩

/-- Witness of C4: a request for the account `u1`. -/
theorem instance_authorizer_witness :
    Sample.requestU1.vars.lookup "id" = some "u1" ∧
    Sample.handler.Get Background Sample.requestU1 =
      [Event.IsAuthorized "rn:hydra:accounts:u1" "get"
         (some { req := Sample.requestU1, owner := some "u1" }) true,
       Event.StorageGet "u1",
       Event.WriteJSON { id := "u1", email := "a@b.c", password := "secret1", data := "{}" }] ∧
    ((NewEnv Sample.requestU1).Owner "u1").owner = some "u1" ∧
    Event.StorageGet "u1" ∈ Sample.handler.Get Background Sample.requestU1 :=
  ⟨by decide, by decide,
    (instance_authorizer Sample.handler Background Sample.requestU1 "u1" (by decide)).1,
    (instance_authorizer Sample.handler Background Sample.requestU1 "u1"
      (by decide)).2.1.2.2 Background Sample.requestU1 rfl⟩

/-- Witness of C8: deleting the account `u1`, on a storage that succeeds. -/
theorem delete_once_witness :
    Sample.requestU1.vars.lookup "id" = some "u1" ∧
    Sample.handler.m.authorized (permission "u1") "delete"
      (some ((NewEnv Sample.requestU1).Owner "u1")) Background Sample.requestU1 =
      .next Background Sample.requestU1 ∧
    (Sample.handler.Delete Background Sample.requestU1).filter Event.isStorage =
      [Event.StorageDelete "u1"] ∧
    statuses Sample.errCode (Sample.handler.Delete Background Sample.requestU1) = [202] :=
  ⟨by decide, rfl,
    (delete_once Sample.handler Background Sample.requestU1 "u1" Sample.errCode Background
      Sample.requestU1 (by decide) rfl).1,
    ((delete_once Sample.handler Background Sample.requestU1 "u1" Sample.errCode Background
      Sample.requestU1 (by decide) rfl).2.1 rfl).2.1⟩

/-- Witness of C6: the body with an invalid email and a short password. -/
theorem create_rejects_invalid_witness :
    Decode Sample.runtime Sample.badCreate.body Payload.zero =
      .ok { Email := "not-an-email", Password := "short", Data := "" } ∧
    Sample.runtime.IsEmail "not-an-email" = false ∧
    statuses Sample.errCode
      (Sample.handler.Create Sample.runtime Background Sample.badCreate) = [400] :=
  ⟨rfl, rfl,
    (create_rejects_invalid Sample.handler Sample.runtime Background Sample.badCreate
      Sample.errCode (Or.inr ⟨_, rfl, Or.inr (Or.inl rfl)⟩)).2.1⟩

/-- Counterexample to C7 as stated: a valid `Create` request, the generated id
`u-1`, and a storage that returns the created account under the id `row-7`: the
`Location` header is `/accounts/row-7`, not `/accounts/u-1`. -/
theorem create_location_counterexample :
    Decode Sample.runtime Sample.goodCreate.body Payload.zero =
      .ok { Email := "a@b.c", Password := "secret1", Data := "" } ∧
    (ValidateStruct Sample.runtime { Email := "a@b.c", Password := "secret1", Data := "" }).1 =
      true ∧
    Sample.runtime.uuidNew = "u-1" ∧
    Sample.renamingHandler.Create Sample.runtime Background Sample.goodCreate =
      [Event.StorageCreate "u-1" "a@b.c" "secret1" "{}",
       Event.WriteCreatedJSON "/accounts/row-7"
         { id := "row-7", email := "a@b.c", password := "secret1", data := "{}" }] ∧
    (Sample.renamingHandler.Create Sample.runtime Background Sample.goodCreate).filterMap
      Event.location? ≠ ["/accounts/" ++ Sample.runtime.uuidNew] :=
  ⟨rfl, by decide, rfl, by decide, by decide⟩

/-- Witness of C7, amended: the same request on the renaming storage. -/
theorem create_valid_witness :
    Decode Sample.runtime Sample.goodCreate.body Payload.zero =
      .ok { Email := "a@b.c", Password := "secret1", Data := "" } ∧
    (ValidateStruct Sample.runtime { Email := "a@b.c", Password := "secret1", Data := "" }).1 =
      true ∧
    (Sample.renamingHandler.Create Sample.runtime Background Sample.goodCreate).filter
      Event.isStorage = [Event.StorageCreate "u-1" "a@b.c" "secret1" "{}"] :=
  ⟨rfl, by decide,
    (create_valid Sample.renamingHandler Sample.runtime Background Sample.goodCreate
      Sample.errCode { Email := "a@b.c", Password := "secret1", Data := "" } rfl
      (by decide)).1⟩

/-- Witness of C10: a valid body without a `data` member. -/
theorem create_data_default_witness :
    Sample.runtime.parseJSON Sample.goodCreate.body =
      .ok { email := some "a@b.c", password := some "secret1", data := none } ∧
    ∃ data,
      (Sample.handler.Create Sample.runtime Background Sample.goodCreate).filter
          Event.isStorage =
        [Event.StorageCreate Sample.runtime.uuidNew "a@b.c" "secret1" data] ∧
      data ≠ "" :=
  ⟨rfl,
    (create_data_default Sample.handler Sample.runtime Background Sample.goodCreate
      { email := some "a@b.c", password := some "secret1", data := none } rfl
      (by decide)).imp (fun _ hd => ⟨hd.1, hd.2.2.2⟩)⟩

/-- Witness of C5: a `DELETE` refused by `IsAuthenticated` reaches neither an
`IsAuthorized` guard nor the storage. -/
theorem short_circuit_witness :
    Sample.closedDeleteRoute ∈
      Sample.closedHandler.SetRoutes Sample.runtime Sample.extractor ∧
    Event.IsAuthenticated false ∈ Sample.closedDeleteRoute.serve Sample.requestU1 ∧
    (Event.StorageDelete "u1").isStorage = true ∧
    ((Event.StorageDelete "u1" ∈ Sample.closedDeleteRoute.serve Sample.requestU1) = False) :=
  ⟨List.getLast_mem _, by decide, rfl,
    eq_false (fun hmem => by
      have hno := ((short_circuit Sample.closedHandler Sample.runtime Sample.extractor
        Sample.closedDeleteRoute (List.getLast_mem _) Sample.requestU1).2.1 (by decide)
        _ hmem).2
      simp [Event.isStorage] at hno)⟩

end Hydra
